import Mathlib

/-!
Verification of the `packmate/log` logger factory (`src/source/log.js`).

The JavaScript module is embedded shallowly:

* `JsValue` is the fragment of JavaScript values the logger manipulates
  (undefined, null, booleans, numbers restricted to integers, strings, and
  plain objects as ordered association lists).
* Every operation (`configure`, `createLogger`, `log`, `log.error`,
  `log.request`, `log.append`) becomes a pure function.  A thrown
  `new Error(...)` becomes `Except.error` carrying a `LogError` tag; the
  original message text is recorded by `errorText`.
* The side effects of one call are reified in a `LogResult`: the list of
  console writes performed and the list of remote sends initiated
  (`fetch` calls), in order.
* `JSON.stringify` is modelled by `jsonDrop`, which removes object members
  whose value is `undefined` (its observable effect on the payload
  structure); rendering the resulting document to a character string is
  elided.
-/

namespace PackmateLog

/-- The fragment of JavaScript values handled by the logger: `undefined`,
`null`, booleans, numbers (restricted to integers), strings, and plain
objects represented as association lists in insertion order. -/
inductive JsValue where
  | undefined : JsValue
  | null : JsValue
  | boolean : Bool → JsValue
  | num : Int → JsValue
  | str : String → JsValue
  | obj : List (String × JsValue) → JsValue

mutual

/-- Boolean equality on `JsValue` (structural). -/
def jsBeq : JsValue → JsValue → Bool
  | .undefined, .undefined => true
  | .null, .null => true
  | .boolean a, .boolean b => a == b
  | .num a, .num b => a == b
  | .str a, .str b => a == b
  | .obj a, .obj b => jsFieldsBeq a b
  | _, _ => false

/-- Boolean equality on member lists. -/
def jsFieldsBeq : List (String × JsValue) → List (String × JsValue) → Bool
  | [], [] => true
  | (k1, v1) :: r1, (k2, v2) :: r2 => k1 == k2 && jsBeq v1 v2 && jsFieldsBeq r1 r2
  | _, _ => false

end

mutual

theorem jsBeq_iff : ∀ a b : JsValue, jsBeq a b = true ↔ a = b
  | .undefined, b => by cases b <;> simp [jsBeq]
  | .null, b => by cases b <;> simp [jsBeq]
  | .boolean a, b => by cases b <;> simp [jsBeq]
  | .num a, b => by cases b <;> simp [jsBeq]
  | .str a, b => by cases b <;> simp [jsBeq]
  | .obj a, b => by
      cases b <;> simp [jsBeq]
      exact jsFieldsBeq_iff a _

theorem jsFieldsBeq_iff : ∀ a b : List (String × JsValue), jsFieldsBeq a b = true ↔ a = b
  | [], b => by cases b <;> simp [jsFieldsBeq]
  | (k1, v1) :: r1, [] => by simp [jsFieldsBeq]
  | (k1, v1) :: r1, (k2, v2) :: r2 => by
      simp [jsFieldsBeq, Bool.and_assoc, jsBeq_iff v1 v2, jsFieldsBeq_iff r1 r2,
        and_assoc]

end

instance : DecidableEq JsValue := fun a b => decidable_of_iff _ (jsBeq_iff a b)

/-- JavaScript truthiness: `undefined`, `null`, `false`, `0` and `""` are
falsy; every other value in the fragment (any object, non-zero number,
non-empty string) is truthy. -/
def truthy : JsValue → Bool
  | .undefined => false
  | .null => false
  | .boolean b => b
  | .num n => n != 0
  | .str s => s != ""
  | .obj _ => true

/-- The JavaScript `typeof` operator on the fragment (`typeof null` is
`"object"`). -/
def typeof : JsValue → String
  | .undefined => "undefined"
  | .null => "object"
  | .boolean _ => "boolean"
  | .num _ => "number"
  | .str _ => "string"
  | .obj _ => "object"

/-- String coercion as performed by template-literal interpolation. -/
def jsToString : JsValue → String
  | .undefined => "undefined"
  | .null => "null"
  | .boolean b => if b then "true" else "false"
  | .num n => toString n
  | .str s => s
  | .obj _ => "[object Object]"

/-- Property lookup in an association list; a missing key yields
`undefined`, as in JavaScript. -/
def lookupProp : List (String × JsValue) → String → JsValue
  | [], _ => .undefined
  | (k, v) :: rest, key => if k = key then v else lookupProp rest key

/-- Property access `v[key]` on an arbitrary value; non-objects have no own
properties in the modelled fragment. -/
def prop : JsValue → String → JsValue
  | .obj fields, key => lookupProp fields key
  | _, _ => .undefined

/-- Whether an object value has a member with the given key. -/
def hasProp : JsValue → String → Bool
  | .obj fields, key => fields.any (fun p => p.1 = key)
  | _, _ => false

mutual

/-- The structural effect of `JSON.stringify` on a value: object members
whose value is `undefined` are omitted, recursively.  The final rendering
to a character string is elided; the returned tree is the serialized
document. -/
def jsonDrop : JsValue → JsValue
  | .obj fields => .obj (jsonDropFields fields)
  | v => v

/-- Member-list part of `jsonDrop`. -/
def jsonDropFields : List (String × JsValue) → List (String × JsValue)
  | [] => []
  | (k, v) :: rest =>
      if v = .undefined then jsonDropFields rest
      else (k, jsonDrop v) :: jsonDropFields rest

end

/-- `name.split('+')` on the character list of a name: splits at every
occurrence of `'+'`; the empty string splits to one empty segment, as in
JavaScript. -/
def splitPlus : List Char → List (List Char)
  | [] => [[]]
  | c :: rest =>
      if c = '+' then [] :: splitPlus rest
      else
        match splitPlus rest with
        | [] => [[c]]
        | seg :: segs => (c :: seg) :: segs

/-- `array.join(' ')` on a list of strings. -/
def joinSpace : List String → String
  | [] => ""
  | [s] => s
  | s :: rest => s ++ " " ++ joinSpace rest

/-- `array.join(', ')` on a list of strings. -/
def joinComma : List String → String
  | [] => ""
  | [s] => s
  | s :: rest => s ++ ", " ++ joinComma rest

/-- The display name of a logger: the name is split on `'+'`, each segment
is wrapped in brackets, and the segments are joined with a space, so that
`"one+two"` renders as `"[one] [two]"`. -/
def displayName (name : String) : String :=
  joinSpace ((splitPlus name.data).map (fun seg => "[" ++ String.mk seg ++ "]"))

/-- The errors thrown by the module, one tag per throw site. -/
inductive LogError where
  | configurationError : LogError
  | nameError : LogError
  | messageError : LogError
  | errorInputError : LogError
  | requestError : LogError
deriving DecidableEq

/-- The message text carried by each thrown `Error` in the source. -/
def errorText : LogError → String
  | .configurationError => "[configureLogger] Called without all required properties."
  | .nameError => "[createLogger] Called without a name."
  | .messageError => "[log] Called without a message."
  | .errorInputError => "[log.error] Called without an error or message."
  | .requestError => "[log.request] Called without a request."

/-- The validated identity configuration destructured from the factory
options: `application`, `key`, `mode`, `source`.  (The `fetch` capability
is the ambient remote-send effect and carries no data.) -/
structure LoggerConfig where
  application : JsValue
  key : JsValue
  mode : JsValue
  source : JsValue
deriving DecidableEq

/-- The factory entry point: destructures the four identity fields from the
options object and fails when any is absent or falsy, otherwise yields the
configuration that `createLogger` closes over. -/
def configure (options : List (String × JsValue)) : Except LogError LoggerConfig :=
  let application := lookupProp options "application"
  let key := lookupProp options "key"
  let mode := lookupProp options "mode"
  let source := lookupProp options "source"
  if !truthy application || !truthy key || !truthy mode || !truthy source then
    .error .configurationError
  else
    .ok ⟨application, key, mode, source⟩

/-- A named logger: the shared configuration plus the (possibly compound,
`'+'`-joined) name the operations close over. -/
structure NamedLogger where
  config : LoggerConfig
  name : String
deriving DecidableEq

/-- `configureLogger(name)` in the source: fails on a falsy name (for
strings, exactly the empty string), otherwise returns the logger closure. -/
def createLogger (config : LoggerConfig) (name : String) : Except LogError NamedLogger :=
  if name = "" then .error .nameError else .ok ⟨config, name⟩

/-- The suffix contributed by a truthy `notes` object: the keys with truthy
values, in insertion order, joined with `", "` and parenthesized; empty
when no key has a truthy value. -/
def noteSuffix (notes : List (String × JsValue)) : String :=
  let truthyNotes := (notes.map Prod.fst).filter (fun k => truthy (lookupProp notes k))
  if truthyNotes.isEmpty then "" else " (" ++ joinComma truthyNotes ++ ")"

/-- `createMessage(message, notes)`: the display name, a space, the
message (coerced to a string), and the note suffix when a notes object was
passed (`none` models an omitted or falsy `notes` argument; a passed
object is always truthy). -/
def createMessage (l : NamedLogger) (message : JsValue)
    (notes : Option (List (String × JsValue))) : String :=
  let suffix :=
    match notes with
    | none => ""
    | some ns => noteSuffix ns
  displayName l.name ++ " " ++ jsToString message ++ suffix

/-- The console channel used by a local write. -/
inductive Channel where
  | log : Channel
  | error : Channel
deriving DecidableEq

/-- One local console write: the channel, the formatted message, and the
optional second structured argument. -/
structure ConsoleWrite where
  channel : Channel
  message : String
  extra : Option JsValue
deriving DecidableEq

/-- One remote send (`fetch` call): URL, HTTP method, content type, and
the object passed to `JSON.stringify` as the request body. -/
structure RemoteSend where
  url : String
  method : String
  contentType : String
  body : JsValue
deriving DecidableEq

/-- The serialized JSON document a send puts on the wire: `JSON.stringify`
applied to the body object, modelled by `jsonDrop`. -/
def sentJson (s : RemoteSend) : JsValue := jsonDrop s.body

/-- The effects of one successful log operation: console writes and remote
sends, in order. -/
structure LogResult where
  console : List ConsoleWrite
  remote : List RemoteSend
deriving DecidableEq

/-- `logRemotely(message, { data, level })`: builds the fetch call with the
endpoint URL interpolating `key` and `source` verbatim, method `POST`, the
JSON content type, and the body object
`{log_entry, metadata: {application, data, level, mode}}` (`data` is
`undefined` when the caller did not supply one). -/
def logRemotely (config : LoggerConfig) (message : String) (data : JsValue)
    (level : String) : RemoteSend :=
  { url := "https://api.logflare.app/logs?api_key=" ++ jsToString config.key
      ++ "&source=" ++ jsToString config.source
    method := "POST"
    contentType := "application/json; charset=UTF-8"
    body := .obj [("log_entry", .str message),
                  ("metadata", .obj [("application", config.application),
                                     ("data", data),
                                     ("level", .str level),
                                     ("mode", config.mode)])] }

/-- `log(message, data, notes)`: throws on a falsy message; otherwise one
console write on the `log` channel (with `data` as second argument exactly
when truthy) and one remote send at level `"info"`. -/
def log (l : NamedLogger) (message data : JsValue)
    (notes : Option (List (String × JsValue))) : Except LogError LogResult :=
  if !truthy message then .error .messageError
  else
    let fullMessage := createMessage l message notes
    if truthy data then
      .ok ⟨[⟨.log, fullMessage, some data⟩],
           [logRemotely l.config fullMessage data "info"]⟩
    else
      .ok ⟨[⟨.log, fullMessage, none⟩],
           [logRemotely l.config fullMessage .undefined "info"]⟩

/-- `log.error(errorOrMessage, data)`: throws on a falsy argument; the
string form behaves like `log` on the `error` channel at level `"error"`;
the object form writes and sends `{stack, error}` built from the argument,
ignoring `data`; a truthy argument of any other `typeof` falls through both
branches and performs no effect at all. -/
def logError (l : NamedLogger) (errorOrMessage data : JsValue) :
    Except LogError LogResult :=
  if !truthy errorOrMessage then .error .errorInputError
  else if typeof errorOrMessage = "string" then
    let message := createMessage l errorOrMessage none
    if truthy data then
      .ok ⟨[⟨.error, message, some data⟩],
           [logRemotely l.config message data "error"]⟩
    else
      .ok ⟨[⟨.error, message, none⟩],
           [logRemotely l.config message .undefined "error"]⟩
  else if typeof errorOrMessage = "object" then
    let message := createMessage l (prop errorOrMessage "message") none
    let metadata := JsValue.obj [("stack", prop errorOrMessage "stack"),
                                 ("error", errorOrMessage)]
    .ok ⟨[⟨.error, message, some metadata⟩],
         [logRemotely l.config message metadata "error"]⟩
  else
    .ok ⟨[], []⟩

/-- `log.request(request)`: throws on a falsy request; otherwise formats
`"{method} {url}"` from the request's (possibly missing) fields and behaves
like `log` with the request body as data. -/
def logRequest (l : NamedLogger) (request : JsValue) : Except LogError LogResult :=
  if !truthy request then .error .requestError
  else
    let body := prop request "body"
    let message := createMessage l
      (.str (jsToString (prop request "method") ++ " " ++ jsToString (prop request "url")))
      none
    if truthy body then
      .ok ⟨[⟨.log, message, some body⟩],
           [logRemotely l.config message body "info"]⟩
    else
      .ok ⟨[⟨.log, message, none⟩],
           [logRemotely l.config message .undefined "info"]⟩

/-- `log.append(newName)`: throws on a falsy name, otherwise creates a
brand-new logger over the same configuration whose name is
`"{currentName}+{newName}"`. -/
def append (l : NamedLogger) (newName : String) : Except LogError NamedLogger :=
  if newName = "" then .error .nameError
  else createLogger l.config (l.name ++ "+" ++ newName)

instance instDecEqExcept {ε α : Type} [DecidableEq ε] [DecidableEq α] :
    DecidableEq (Except ε α) := fun a b =>
  match a, b with
  | .error x, .error y =>
      if h : x = y then .isTrue (congrArg Except.error h)
      else .isFalse (fun he => h (Except.error.inj he))
  | .ok x, .ok y =>
      if h : x = y then .isTrue (congrArg Except.ok h)
      else .isFalse (fun he => h (Except.ok.inj he))
  | .error _, .ok _ => .isFalse Except.noConfusion
  | .ok _, .error _ => .isFalse Except.noConfusion

/-- A concrete valid configuration used for witnesses. -/
def testConfig : LoggerConfig :=
  ⟨.str "app", .str "secret", .str "test", .str "src1"⟩

/-- A concrete logger over `testConfig` named `"name"`. -/
def testLogger : NamedLogger := ⟨testConfig, "name"⟩

/-! ### String and split helper lemmas -/

theorem mk_data (s : String) : String.mk s.data = s := rfl

theorem lbrack_data : "[".data = ['['] := rfl

theorem rbrack_data : "]".data = [']'] := rfl

theorem space_data : " ".data = [' '] := rfl

theorem plus_data : "+".data = ['+'] := rfl

theorem rbrack_space_data : "] ".data = [']', ' '] := rfl

theorem rbrack_space_lbrack_data : "] [".data = [']', ' ', '['] := rfl

theorem splitPlus_ne_nil : ∀ cs : List Char, splitPlus cs ≠ []
  | [] => by simp [splitPlus]
  | c :: rest => by
      simp only [splitPlus]
      split
      · simp
      · split <;> simp

theorem splitPlus_of_not_mem : ∀ cs : List Char, '+' ∉ cs → splitPlus cs = [cs]
  | [], _ => rfl
  | c :: rest, h => by
      have hc : ¬c = '+' := fun e => h (e ▸ List.mem_cons_self c rest)
      have hr : '+' ∉ rest := fun m => h (List.mem_cons_of_mem _ m)
      simp only [splitPlus, if_neg hc, splitPlus_of_not_mem rest hr]

theorem splitPlus_append : ∀ a : List Char, ∀ b : List Char, '+' ∉ a →
    splitPlus (a ++ '+' :: b) = a :: splitPlus b
  | [], b, _ => by simp [splitPlus]
  | c :: a', b, h => by
      have hc : ¬c = '+' := fun e => h (e ▸ List.mem_cons_self c a')
      have ha' : '+' ∉ a' := fun m => h (List.mem_cons_of_mem _ m)
      simp only [List.cons_append, splitPlus, if_neg hc, List.append_eq]
      rw [splitPlus_append a' b ha']

theorem joinSpace_cons (s : String) (y : String) (ys : List String) :
    joinSpace (s :: y :: ys) = s ++ " " ++ joinSpace (y :: ys) := rfl

theorem displayName_of_not_mem (a : String) (h : '+' ∉ a.data) :
    displayName a = "[" ++ a ++ "]" := by
  unfold displayName
  rw [splitPlus_of_not_mem a.data h]
  simp [joinSpace, mk_data]

theorem displayName_append (a b : String) (ha : '+' ∉ a.data) :
    displayName (a ++ "+" ++ b) = "[" ++ a ++ "] " ++ displayName b := by
  unfold displayName
  have hdata : (a ++ "+" ++ b).data = a.data ++ '+' :: b.data := by
    simp [String.data_append, plus_data]
  rw [hdata, splitPlus_append a.data b.data ha]
  cases hsb : splitPlus b.data with
  | nil => exact absurd hsb (splitPlus_ne_nil b.data)
  | cons u us =>
      simp only [List.map_cons, mk_data, joinSpace_cons]
      apply String.ext
      simp [String.data_append, rbrack_data, rbrack_space_data, space_data,
        lbrack_data]

theorem createMessage_prefix (l : NamedLogger) (m : JsValue)
    (notes : Option (List (String × JsValue))) :
    ∃ rest, createMessage l m notes = displayName l.name ++ rest := by
  cases notes with
  | none =>
      exact ⟨" " ++ jsToString m,
        by simp [createMessage, String.append_assoc, String.append_empty]⟩
  | some ns =>
      exact ⟨" " ++ (jsToString m ++ noteSuffix ns),
        by simp [createMessage, String.append_assoc]⟩

theorem createMessage_notes_shift (l : NamedLogger) (m : JsValue)
    (ns : List (String × JsValue)) :
    createMessage l m (some ns) = createMessage l m none ++ noteSuffix ns := by
  simp [createMessage, String.append_empty]

theorem truthyKeys_eq (ns : List (String × JsValue))
    (h : (ns.map Prod.fst).Nodup) :
    (ns.map Prod.fst).filter (fun k => truthy (lookupProp ns k)) =
      (ns.filter (fun p => truthy p.2)).map Prod.fst := by
  induction ns with
  | nil => rfl
  | cons p rest ih =>
      obtain ⟨k, v⟩ := p
      simp only [List.map_cons, List.nodup_cons] at h
      obtain ⟨hk, hrest⟩ := h
      have hhead : lookupProp ((k, v) :: rest) k = v := by simp [lookupProp]
      have htail : (rest.map Prod.fst).filter
            (fun x => truthy (lookupProp ((k, v) :: rest) x)) =
          (rest.map Prod.fst).filter (fun x => truthy (lookupProp rest x)) := by
        apply List.filter_congr
        intro x hx
        have hxk : ¬k = x := fun e => hk (e ▸ hx)
        simp [lookupProp, if_neg hxk]
      simp only [List.map_cons, List.filter_cons, hhead, htail, ih hrest]
      by_cases htv : truthy v
      · simp [htv]
      · simp [htv]

theorem log_entry_of_logRemotely (cfg : LoggerConfig) (msg : String)
    (d : JsValue) (lvl : String) :
    prop (logRemotely cfg msg d lvl).body "log_entry" = .str msg := rfl

theorem any_key_jsonDropFields (k : String) :
    ∀ fs : List (String × JsValue), (∀ p ∈ fs, p.1 = k → p.2 = .undefined) →
      (jsonDropFields fs).any (fun p => p.1 = k) = false
  | [], _ => rfl
  | (k1, v1) :: rest, h => by
      have hrest : ∀ p ∈ rest, p.1 = k → p.2 = .undefined :=
        fun p hp => h p (List.mem_cons_of_mem _ hp)
      by_cases hv : v1 = JsValue.undefined
      · simp only [jsonDropFields, if_pos hv]
        exact any_key_jsonDropFields k rest hrest
      · have hk1 : ¬k1 = k := fun e => hv (h (k1, v1) (List.mem_cons_self _ _) e)
        simp only [jsonDropFields, if_neg hv, List.any_cons]
        simp [hk1, any_key_jsonDropFields k rest hrest]

/-- C7: `configure` fails with the configuration error exactly when one of
the four identity fields `application`, `key`, `mode`, `source` is absent
from the options or falsy; when all four are truthy it succeeds with the
configuration that binds `createLogger`. -/
theorem C7_configure_iff (options : List (String × JsValue)) :
    (configure options = .error .configurationError ↔
      (truthy (lookupProp options "application") = false ∨
       truthy (lookupProp options "key") = false ∨
       truthy (lookupProp options "mode") = false ∨
       truthy (lookupProp options "source") = false)) ∧
    (configure options = .ok ⟨lookupProp options "application",
        lookupProp options "key", lookupProp options "mode",
        lookupProp options "source"⟩ ↔
      (truthy (lookupProp options "application") = true ∧
       truthy (lookupProp options "key") = true ∧
       truthy (lookupProp options "mode") = true ∧
       truthy (lookupProp options "source") = true)) := by
  unfold configure
  cases ha : truthy (lookupProp options "application") <;>
    cases hk : truthy (lookupProp options "key") <;>
      cases hm : truthy (lookupProp options "mode") <;>
        cases hs : truthy (lookupProp options "source") <;>
          simp_all

/-- C8: a falsy required argument makes each operation fail synchronously
with its corresponding error, and in the model an error result carries no
console write and no remote send. -/
theorem C8_falsy_arguments_raise (cfg : LoggerConfig) (l : NamedLogger)
    (m e r d : JsValue) (notes : Option (List (String × JsValue)))
    (hm : truthy m = false) (he : truthy e = false) (hr : truthy r = false) :
    createLogger cfg "" = .error .nameError ∧
    log l m d notes = .error .messageError ∧
    logError l e d = .error .errorInputError ∧
    logRequest l r = .error .requestError ∧
    append l "" = .error .nameError ∧
    (∀ res : LogResult, log l m d notes ≠ .ok res) ∧
    (∀ res : LogResult, logError l e d ≠ .ok res) ∧
    (∀ res : LogResult, logRequest l r ≠ .ok res) := by
  refine ⟨rfl, ?_, ?_, ?_, rfl, ?_, ?_, ?_⟩ <;>
    simp [log, logError, logRequest, hm, he, hr]

/-- C8 witness: concrete falsy arguments (`undefined`, `null`, `0`) raise
the documented errors. -/
theorem C8_witness :
    createLogger testConfig "" = .error .nameError ∧
    log testLogger .undefined .undefined none = .error .messageError ∧
    logError testLogger .null .undefined = .error .errorInputError ∧
    logRequest testLogger (.num 0) = .error .requestError ∧
    append testLogger "" = .error .nameError ∧
    (∀ res : LogResult, log testLogger .undefined .undefined none ≠ .ok res) ∧
    (∀ res : LogResult, logError testLogger .null .undefined ≠ .ok res) ∧
    (∀ res : LogResult, logRequest testLogger (.num 0) ≠ .ok res) :=
  C8_falsy_arguments_raise testConfig testLogger .undefined .null (.num 0)
    .undefined none (by decide) (by decide) (by decide)

/-- C3: with a notes mapping (unique keys, insertion order), the formatted
message is the plain message followed by a parenthesized, comma-joined list
of exactly the keys with truthy values; when no key has a truthy value
(in particular for the empty mapping) the output is identical to omitting
notes. -/
theorem C3_note_suffix (l : NamedLogger) (m : JsValue)
    (ns : List (String × JsValue)) (h : (ns.map Prod.fst).Nodup) :
    ((ns.filter (fun p => truthy p.2)) ≠ [] →
      createMessage l m (some ns) = createMessage l m none ++
        " (" ++ joinComma ((ns.filter (fun p => truthy p.2)).map Prod.fst) ++ ")") ∧
    ((∀ p ∈ ns, truthy p.2 = false) →
      createMessage l m (some ns) = createMessage l m none) := by
  rw [createMessage_notes_shift]
  unfold noteSuffix
  rw [truthyKeys_eq ns h]
  constructor
  · intro hne
    rw [if_neg (by simp [List.isEmpty_iff, hne])]
    simp [String.append_assoc]
  · intro hall
    have hnil : ns.filter (fun p => truthy p.2) = [] := by
      simp only [List.filter_eq_nil_iff]
      intro p hp
      simp [hall p hp]
    rw [hnil]
    simp [String.append_empty]

/-- C3 witness: the notes mapping from the spec's own example produces the
suffix listing exactly the truthy keys in insertion order, and an all-falsy
mapping produces exactly the notes-free output. -/
theorem C3_witness :
    createMessage testLogger (.str "msg")
        (some [("note 1", .boolean true), ("note 2", .boolean false),
               ("note 3", .num 1), ("note 4", .str "ok")]) =
      "[name] msg (note 1, note 3, note 4)" ∧
    createMessage testLogger (.str "msg")
        (some [("note 1", .boolean false), ("note 2", .num 0)]) =
      createMessage testLogger (.str "msg") none := by
  constructor
  · have h := C3_note_suffix testLogger (.str "msg")
      [("note 1", .boolean true), ("note 2", .boolean false),
       ("note 3", .num 1), ("note 4", .str "ok")] (by decide)
    have h1 := h.1 (by decide)
    rw [h1]
    decide
  · have h := C3_note_suffix testLogger (.str "msg")
      [("note 1", .boolean false), ("note 2", .num 0)] (by decide)
    exact h.2 (by decide)

/-- C4 counterexample: for the truthy name `"x+y"` (which contains a `'+'`),
appending `"b"` renders `"[x] [y] [b]"`, not the claimed `"[x+y] [b]"`. -/
theorem C4_counterexample :
    createLogger testConfig "x+y" = .ok ⟨testConfig, "x+y"⟩ ∧
    append ⟨testConfig, "x+y"⟩ "b" = .ok ⟨testConfig, "x+y+b"⟩ ∧
    displayName "x+y+b" ≠ "[x+y] [b]" ∧
    displayName "x+y+b" = "[x] [y] [b]" := by decide

/-- C4 (amended to names free of the `'+'` separator): `append` on truthy
names produces a new, usable logger whose compound name joins the names
with `"+"`, rendering `"[a] [b]"` after one append and `"[a] [b] [c]"`
after two, while the original logger still renders `"[a]"`. -/
theorem C4_append_rendering (cfg : LoggerConfig) (a b c : String)
    (hna : a ≠ "") (hnb : b ≠ "") (hnc : c ≠ "")
    (ha : '+' ∉ a.data) (hb : '+' ∉ b.data) (hc : '+' ∉ c.data) :
    createLogger cfg a = .ok ⟨cfg, a⟩ ∧
    append ⟨cfg, a⟩ b = .ok ⟨cfg, a ++ "+" ++ b⟩ ∧
    append ⟨cfg, a ++ "+" ++ b⟩ c = .ok ⟨cfg, a ++ "+" ++ b ++ "+" ++ c⟩ ∧
    displayName (a ++ "+" ++ b) = "[" ++ a ++ "] [" ++ b ++ "]" ∧
    displayName (a ++ "+" ++ b ++ "+" ++ c) =
      "[" ++ a ++ "] [" ++ b ++ "] [" ++ c ++ "]" ∧
    displayName a = "[" ++ a ++ "]" := by
  have hab : a ++ "+" ++ b ≠ "" := by
    intro hEq
    have hd := congrArg String.data hEq
    simp [String.data_append, plus_data] at hd
  have habc : a ++ "+" ++ b ++ "+" ++ c ≠ "" := by
    intro hEq
    have hd := congrArg String.data hEq
    simp [String.data_append, plus_data] at hd
  refine ⟨?_, ?_, ?_, ?_, ?_, displayName_of_not_mem a ha⟩
  · simp [createLogger, hna]
  · simp [append, createLogger, hnb, hab]
  · simp [append, createLogger, hnc, habc]
  · rw [displayName_append a b ha, displayName_of_not_mem b hb]
    apply String.ext
    simp [String.data_append, lbrack_data, rbrack_data, rbrack_space_data,
      rbrack_space_lbrack_data]
  · have hassoc : a ++ "+" ++ b ++ "+" ++ c = a ++ "+" ++ (b ++ "+" ++ c) := by
      simp [String.append_assoc]
    rw [hassoc, displayName_append a (b ++ "+" ++ c) ha,
      displayName_append b c hb, displayName_of_not_mem c hc]
    apply String.ext
    simp [String.data_append, lbrack_data, rbrack_data, rbrack_space_data,
      rbrack_space_lbrack_data]

/-- C4 witness: concrete plus-free names `"one"`, `"two"`, `"three"`. -/
theorem C4_witness :
    createLogger testConfig "one" = .ok ⟨testConfig, "one"⟩ ∧
    append ⟨testConfig, "one"⟩ "two" = .ok ⟨testConfig, "one" ++ "+" ++ "two"⟩ ∧
    append ⟨testConfig, "one" ++ "+" ++ "two"⟩ "three" =
      .ok ⟨testConfig, "one" ++ "+" ++ "two" ++ "+" ++ "three"⟩ ∧
    displayName ("one" ++ "+" ++ "two") = "[" ++ "one" ++ "] [" ++ "two" ++ "]" ∧
    displayName ("one" ++ "+" ++ "two" ++ "+" ++ "three") =
      "[" ++ "one" ++ "] [" ++ "two" ++ "] [" ++ "three" ++ "]" ∧
    displayName "one" = "[" ++ "one" ++ "]" :=
  C4_append_rendering testConfig "one" "two" "three"
    (by decide) (by decide) (by decide) (by decide) (by decide) (by decide)

/-- C1 counterexample: `log.error` applied to the truthy number `1`
performs no console write and no remote send at all, refuting the claim's
"any other value" clause. -/
theorem C1_counterexample :
    truthy (.num 1) = true ∧
    logError testLogger (.num 1) .undefined = .ok ⟨[], []⟩ ∧
    ¬∃ res, logError testLogger (.num 1) .undefined = .ok res ∧
        res.console.length = 1 ∧ res.remote.length = 1 := by
  refine ⟨by decide, by decide, ?_⟩
  rintro ⟨res, hres, hlen, -⟩
  have hok : logError testLogger (.num 1) .undefined = .ok ⟨[], []⟩ := by decide
  rw [hok] at hres
  cases Except.ok.inj hres
  simp at hlen

/-- C1 (amended): `log` and `log.request` with a truthy required argument,
and `log.error` with a truthy string or object argument, perform exactly
one console write and one remote send; `log.error` on a truthy argument of
any other `typeof` performs neither. -/
theorem C1_one_write_one_send (l : NamedLogger) (m d e x r : JsValue)
    (notes : Option (List (String × JsValue)))
    (hm : truthy m = true)
    (he : truthy e = true) (hes : typeof e = "string" ∨ typeof e = "object")
    (hx : truthy x = true) (hxs : ¬typeof x = "string")
    (hxo : ¬typeof x = "object")
    (hr : truthy r = true) :
    (∃ res, log l m d notes = .ok res ∧
      res.console.length = 1 ∧ res.remote.length = 1) ∧
    (∃ res, logError l e d = .ok res ∧
      res.console.length = 1 ∧ res.remote.length = 1) ∧
    (∃ res, logRequest l r = .ok res ∧
      res.console.length = 1 ∧ res.remote.length = 1) ∧
    logError l x d = .ok ⟨[], []⟩ := by
  refine ⟨?_, ?_, ?_, by simp [logError, hx, hxs, hxo]⟩
  · by_cases hd : truthy d
    · exact ⟨⟨[⟨.log, createMessage l m notes, some d⟩],
        [logRemotely l.config (createMessage l m notes) d "info"]⟩,
        by simp [log, hm, hd], rfl, rfl⟩
    · exact ⟨⟨[⟨.log, createMessage l m notes, none⟩],
        [logRemotely l.config (createMessage l m notes) .undefined "info"]⟩,
        by simp [log, hm, hd], rfl, rfl⟩
  · rcases hes with hstr | hobj
    · by_cases hd : truthy d
      · exact ⟨⟨[⟨.error, createMessage l e none, some d⟩],
          [logRemotely l.config (createMessage l e none) d "error"]⟩,
          by simp [logError, he, hstr, hd], rfl, rfl⟩
      · exact ⟨⟨[⟨.error, createMessage l e none, none⟩],
          [logRemotely l.config (createMessage l e none) .undefined "error"]⟩,
          by simp [logError, he, hstr, hd], rfl, rfl⟩
    · have hnstr : ¬typeof e = "string" := by rw [hobj]; decide
      exact ⟨⟨[⟨.error, createMessage l (prop e "message") none,
          some (.obj [("stack", prop e "stack"), ("error", e)])⟩],
          [logRemotely l.config (createMessage l (prop e "message") none)
            (.obj [("stack", prop e "stack"), ("error", e)]) "error"]⟩,
          by simp [logError, he, hnstr, hobj], rfl, rfl⟩
  · by_cases hb : truthy (prop r "body")
    · exact ⟨⟨[⟨.log, createMessage l
          (.str (jsToString (prop r "method") ++ " " ++ jsToString (prop r "url")))
          none, some (prop r "body")⟩],
        [logRemotely l.config (createMessage l
          (.str (jsToString (prop r "method") ++ " " ++ jsToString (prop r "url")))
          none) (prop r "body") "info"]⟩,
        by simp [logRequest, hr, hb], rfl, rfl⟩
    · exact ⟨⟨[⟨.log, createMessage l
          (.str (jsToString (prop r "method") ++ " " ++ jsToString (prop r "url")))
          none, none⟩],
        [logRemotely l.config (createMessage l
          (.str (jsToString (prop r "method") ++ " " ++ jsToString (prop r "url")))
          none) .undefined "info"]⟩,
        by simp [logRequest, hr, hb], rfl, rfl⟩

/-- C1 witness: a concrete message, a concrete error string, a concrete
request object, and the truthy number `1` as the fallthrough input. -/
theorem C1_witness :
    (∃ res, log testLogger (.str "m") .undefined none = .ok res ∧
      res.console.length = 1 ∧ res.remote.length = 1) ∧
    (∃ res, logError testLogger (.str "e") .undefined = .ok res ∧
      res.console.length = 1 ∧ res.remote.length = 1) ∧
    (∃ res, logRequest testLogger (.obj [("method", .str "GET"),
        ("url", .str "/")]) = .ok res ∧
      res.console.length = 1 ∧ res.remote.length = 1) ∧
    logError testLogger (.num 1) .undefined = .ok ⟨[], []⟩ :=
  C1_one_write_one_send testLogger (.str "m") .undefined (.str "e") (.num 1)
    (.obj [("method", .str "GET"), ("url", .str "/")]) none
    (by decide) (by decide) (Or.inl (by decide)) (by decide) (by decide)
    (by decide) (by decide)

/-- C2 counterexample: for the request `(method GET, url /)` on the logger
named `"name"`, the remote `log_entry` is the display-name-prefixed
`"[name] GET /"`, not the bare `"GET /"` the claim states. -/
theorem C2_counterexample :
    logRequest testLogger (.obj [("method", .str "GET"), ("url", .str "/")]) =
      .ok ⟨[⟨.log, "[name] GET /", none⟩],
           [logRemotely testConfig "[name] GET /" .undefined "info"]⟩ ∧
    prop (logRemotely testConfig "[name] GET /" .undefined "info").body
      "log_entry" = .str "[name] GET /" ∧
    JsValue.str "[name] GET /" ≠ .str "GET /" := by decide

/-- C2 (amended): for every truthy request, the remote payload's
`log_entry` is the formatted message — the bracketed display name followed
by `"{method} {url}"` — with level `"info"`, the metadata `data` equal to
the body when the body is truthy, and no `data` key in the serialized
metadata when the body is falsy. -/
theorem C2_request_payload (l : NamedLogger) (req : JsValue)
    (hreq : truthy req = true) :
    ∃ res, logRequest l req = .ok res ∧
      res.remote = [logRemotely l.config
        (createMessage l (.str (jsToString (prop req "method") ++ " " ++
          jsToString (prop req "url"))) none)
        (if truthy (prop req "body") then prop req "body" else .undefined)
        "info"] ∧
      ∀ rs ∈ res.remote,
        prop rs.body "log_entry" =
          .str (createMessage l (.str (jsToString (prop req "method") ++ " " ++
            jsToString (prop req "url"))) none) ∧
        prop (prop rs.body "metadata") "level" = .str "info" ∧
        (truthy (prop req "body") = true →
          prop (prop rs.body "metadata") "data" = prop req "body") ∧
        (truthy (prop req "body") = false →
          hasProp (prop (sentJson rs) "metadata") "data" = false) := by
  by_cases hb : truthy (prop req "body")
  · refine ⟨⟨[⟨.log, createMessage l (.str (jsToString (prop req "method") ++
        " " ++ jsToString (prop req "url"))) none, some (prop req "body")⟩],
      [logRemotely l.config (createMessage l (.str (jsToString (prop req "method")
        ++ " " ++ jsToString (prop req "url"))) none) (prop req "body") "info"]⟩,
      by simp [logRequest, hreq, hb], by simp [hb], ?_⟩
    intro rs hrs
    rw [List.mem_singleton] at hrs
    subst hrs
    exact ⟨rfl, rfl, fun _ => rfl, fun hcon => absurd hcon (by simp [hb])⟩
  · refine ⟨⟨[⟨.log, createMessage l (.str (jsToString (prop req "method") ++
        " " ++ jsToString (prop req "url"))) none, none⟩],
      [logRemotely l.config (createMessage l (.str (jsToString (prop req "method")
        ++ " " ++ jsToString (prop req "url"))) none) .undefined "info"]⟩,
      by simp [logRequest, hreq, hb], by simp [hb], ?_⟩
    intro rs hrs
    rw [List.mem_singleton] at hrs
    subst hrs
    refine ⟨rfl, rfl, fun hcon => absurd hcon hb, fun _ => ?_⟩
    show ((jsonDropFields [("application", l.config.application),
        ("data", JsValue.undefined), ("level", JsValue.str "info"),
        ("mode", l.config.mode)]).any (fun p => p.1 = "data")) = false
    apply any_key_jsonDropFields
    intro p hp hpk
    simp only [List.mem_cons, List.not_mem_nil, or_false] at hp
    rcases hp with h1 | h1 | h1 | h1 <;> subst h1 <;> simp_all

/-- C2 witness: a concrete GET request without a body and a concrete POST
request with body `"b"`. -/
theorem C2_witness :
    (∃ res, logRequest testLogger (.obj [("method", .str "GET"),
        ("url", .str "/")]) = .ok res ∧
      res.remote = [logRemotely testConfig
        (createMessage testLogger (.str (jsToString (prop (.obj [("method",
          .str "GET"), ("url", .str "/")]) "method") ++ " " ++
          jsToString (prop (.obj [("method", .str "GET"), ("url", .str "/")])
          "url"))) none)
        (if truthy (prop (.obj [("method", .str "GET"), ("url", .str "/")])
          "body") then prop (.obj [("method", .str "GET"), ("url", .str "/")])
          "body" else .undefined) "info"] ∧
      ∀ rs ∈ res.remote,
        prop rs.body "log_entry" =
          .str (createMessage testLogger (.str (jsToString (prop (.obj
            [("method", .str "GET"), ("url", .str "/")]) "method") ++ " " ++
            jsToString (prop (.obj [("method", .str "GET"), ("url", .str "/")])
            "url"))) none) ∧
        prop (prop rs.body "metadata") "level" = .str "info" ∧
        (truthy (prop (.obj [("method", .str "GET"), ("url", .str "/")])
          "body") = true →
          prop (prop rs.body "metadata") "data" =
            prop (.obj [("method", .str "GET"), ("url", .str "/")]) "body") ∧
        (truthy (prop (.obj [("method", .str "GET"), ("url", .str "/")])
          "body") = false →
          hasProp (prop (sentJson rs) "metadata") "data" = false)) ∧
    truthy (JsValue.obj [("method", .str "GET"), ("url", .str "/")]) = true :=
  ⟨C2_request_payload testLogger (.obj [("method", .str "GET"),
    ("url", .str "/")]) (by decide), by decide⟩

/-- C5: every remote send built by `logRemotely` goes to the logflare URL
with `key` and `source` interpolated verbatim, uses method `POST` and the
JSON content type, and its serialized body is
`(log_entry, metadata (application, data?, level, mode))` with the `data`
key present exactly when a data value was supplied; and every remote send
issued by `log`, `log.error` or `log.request` is such a `logRemotely`
send at the operation's level. -/
theorem C5_remote_send (l : NamedLogger) (ak k m s : String)
    (h1 : l.config.application = .str ak) (h2 : l.config.key = .str k)
    (h3 : l.config.mode = .str m) (h4 : l.config.source = .str s) :
    (∀ msg d lvl,
      (logRemotely l.config msg d lvl).url =
        "https://api.logflare.app/logs?api_key=" ++ k ++ "&source=" ++ s ∧
      (logRemotely l.config msg d lvl).method = "POST" ∧
      (logRemotely l.config msg d lvl).contentType =
        "application/json; charset=UTF-8" ∧
      sentJson (logRemotely l.config msg d lvl) =
        .obj [("log_entry", .str msg),
              ("metadata", .obj ([("application", .str ak)] ++
                (if d = .undefined then [] else [("data", jsonDrop d)]) ++
                [("level", .str lvl), ("mode", .str m)]))]) ∧
    (∀ msg data notes res, log l msg data notes = .ok res →
      ∀ rs ∈ res.remote, ∃ fm dv, rs = logRemotely l.config fm dv "info") ∧
    (∀ e data res, logError l e data = .ok res →
      ∀ rs ∈ res.remote, ∃ fm dv, rs = logRemotely l.config fm dv "error") ∧
    (∀ req res, logRequest l req = .ok res →
      ∀ rs ∈ res.remote, ∃ fm dv, rs = logRemotely l.config fm dv "info") := by
  refine ⟨?_, ?_, ?_, ?_⟩
  · intro msg d lvl
    refine ⟨by simp [logRemotely, h2, h4, jsToString], rfl, rfl, ?_⟩
    show jsonDrop _ = _
    by_cases hd : d = JsValue.undefined
    · simp [logRemotely, jsonDrop, jsonDropFields, h1, h3, hd]
    · simp [logRemotely, jsonDrop, jsonDropFields, h1, h3, hd]
  · intro msg data notes res hres
    unfold log at hres
    split at hres
    · cases hres
    · split at hres <;>
        · cases Except.ok.inj hres
          intro rs hrs
          rw [List.mem_singleton] at hrs
          subst hrs
          exact ⟨_, _, rfl⟩
  · intro e data res hres
    unfold logError at hres
    split at hres
    · cases hres
    · split at hres
      · split at hres <;>
          · cases Except.ok.inj hres
            intro rs hrs
            rw [List.mem_singleton] at hrs
            subst hrs
            exact ⟨_, _, rfl⟩
      · split at hres
        · cases Except.ok.inj hres
          intro rs hrs
          rw [List.mem_singleton] at hrs
          subst hrs
          exact ⟨_, _, rfl⟩
        · cases Except.ok.inj hres
          intro rs hrs
          cases hrs
  · intro req res hres
    simp only [logRequest] at hres
    by_cases hq : (!truthy req) = true
    · rw [if_pos hq] at hres
      cases hres
    · rw [if_neg hq] at hres
      by_cases hbb : truthy (prop req "body") = true
      · rw [if_pos hbb] at hres
        cases Except.ok.inj hres
        intro rs hrs
        rw [List.mem_singleton] at hrs
        subst hrs
        exact ⟨_, _, rfl⟩
      · rw [if_neg hbb] at hres
        cases Except.ok.inj hres
        intro rs hrs
        rw [List.mem_singleton] at hrs
        subst hrs
        exact ⟨_, _, rfl⟩

/-- C5 witness: the concrete `testConfig` fields give the concrete URL and
serialized payloads with and without a data value. -/
theorem C5_witness :
    (∀ msg d lvl,
      (logRemotely testLogger.config msg d lvl).url =
        "https://api.logflare.app/logs?api_key=" ++ "secret" ++ "&source=" ++
          "src1" ∧
      (logRemotely testLogger.config msg d lvl).method = "POST" ∧
      (logRemotely testLogger.config msg d lvl).contentType =
        "application/json; charset=UTF-8" ∧
      sentJson (logRemotely testLogger.config msg d lvl) =
        .obj [("log_entry", .str msg),
              ("metadata", .obj ([("application", .str "app")] ++
                (if d = .undefined then [] else [("data", jsonDrop d)]) ++
                [("level", .str lvl), ("mode", .str "test")]))]) ∧
    (∀ msg data notes res, log testLogger msg data notes = .ok res →
      ∀ rs ∈ res.remote, ∃ fm dv,
        rs = logRemotely testLogger.config fm dv "info") ∧
    (∀ e data res, logError testLogger e data = .ok res →
      ∀ rs ∈ res.remote, ∃ fm dv,
        rs = logRemotely testLogger.config fm dv "error") ∧
    (∀ req res, logRequest testLogger req = .ok res →
      ∀ rs ∈ res.remote, ∃ fm dv,
        rs = logRemotely testLogger.config fm dv "info") :=
  C5_remote_send testLogger "app" "secret" "test" "src1" rfl rfl rfl rfl

/-- C6: in the object form of `log.error`, the console's second argument
and the remote metadata's `data` both equal the `(stack, error)` object
built from the argument, whatever `data` argument was passed; in the
string form, `data` is included only when truthy. -/
theorem C6_error_object_metadata (l : NamedLogger) (e msg d : JsValue)
    (he : truthy e = true) (heo : typeof e = "object")
    (hmt : truthy msg = true) (hms : typeof msg = "string") :
    logError l e d = .ok
      ⟨[⟨.error, createMessage l (prop e "message") none,
         some (.obj [("stack", prop e "stack"), ("error", e)])⟩],
       [logRemotely l.config (createMessage l (prop e "message") none)
         (.obj [("stack", prop e "stack"), ("error", e)]) "error"]⟩ ∧
    prop (prop (logRemotely l.config (createMessage l (prop e "message") none)
        (.obj [("stack", prop e "stack"), ("error", e)]) "error").body
      "metadata") "data" = .obj [("stack", prop e "stack"), ("error", e)] ∧
    logError l msg d = .ok
      ⟨[⟨.error, createMessage l msg none,
         if truthy d then some d else none⟩],
       [logRemotely l.config (createMessage l msg none)
         (if truthy d then d else .undefined) "error"]⟩ := by
  have hnstr : ¬typeof e = "string" := by rw [heo]; decide
  refine ⟨by simp [logError, he, hnstr, heo], rfl, ?_⟩
  by_cases hd : truthy d <;> simp [logError, hmt, hms, hd]

/-- C6 witness: a concrete error object with `message` and `stack` fields,
a spurious extra data argument, and a concrete string message. -/
theorem C6_witness :
    logError testLogger (.obj [("message", .str "boom"), ("stack", .str "tr")])
        (.str "extra") = .ok
      ⟨[⟨.error, createMessage testLogger (prop (.obj [("message", .str "boom"),
          ("stack", .str "tr")]) "message") none,
         some (.obj [("stack", prop (.obj [("message", .str "boom"),
           ("stack", .str "tr")]) "stack"),
           ("error", .obj [("message", .str "boom"), ("stack", .str "tr")])])⟩],
       [logRemotely testConfig (createMessage testLogger (prop (.obj
           [("message", .str "boom"), ("stack", .str "tr")]) "message") none)
         (.obj [("stack", prop (.obj [("message", .str "boom"),
           ("stack", .str "tr")]) "stack"),
           ("error", .obj [("message", .str "boom"), ("stack", .str "tr")])])
         "error"]⟩ ∧
    prop (prop (logRemotely testConfig (createMessage testLogger (prop (.obj
        [("message", .str "boom"), ("stack", .str "tr")]) "message") none)
        (.obj [("stack", prop (.obj [("message", .str "boom"),
          ("stack", .str "tr")]) "stack"),
          ("error", .obj [("message", .str "boom"), ("stack", .str "tr")])])
        "error").body "metadata") "data" =
      .obj [("stack", prop (.obj [("message", .str "boom"),
        ("stack", .str "tr")]) "stack"),
        ("error", .obj [("message", .str "boom"), ("stack", .str "tr")])] ∧
    logError testLogger (.str "oops") (.str "extra") = .ok
      ⟨[⟨.error, createMessage testLogger (.str "oops") none,
         if truthy (.str "extra") then some (.str "extra") else none⟩],
       [logRemotely testConfig (createMessage testLogger (.str "oops") none)
         (if truthy (.str "extra") then .str "extra" else .undefined)
         "error"]⟩ :=
  C6_error_object_metadata testLogger
    (.obj [("message", .str "boom"), ("stack", .str "tr")]) (.str "oops")
    (.str "extra") (by decide) (by decide) (by decide) (by decide)

/-- C9: every rendered message of a successful operation — each console
message and each remote `log_entry` — starts with the logger's bracketed
display name, and notes contribute only a terminal suffix appended to the
notes-free message. -/
theorem C9_display_name_prefix (l : NamedLogger) :
    (∀ m d notes res, log l m d notes = .ok res →
      (∀ w ∈ res.console, ∃ rest, w.message = displayName l.name ++ rest) ∧
      (∀ rs ∈ res.remote, ∃ rest,
        prop rs.body "log_entry" = .str (displayName l.name ++ rest))) ∧
    (∀ e d res, logError l e d = .ok res →
      (∀ w ∈ res.console, ∃ rest, w.message = displayName l.name ++ rest) ∧
      (∀ rs ∈ res.remote, ∃ rest,
        prop rs.body "log_entry" = .str (displayName l.name ++ rest))) ∧
    (∀ req res, logRequest l req = .ok res →
      (∀ w ∈ res.console, ∃ rest, w.message = displayName l.name ++ rest) ∧
      (∀ rs ∈ res.remote, ∃ rest,
        prop rs.body "log_entry" = .str (displayName l.name ++ rest))) ∧
    (∀ m ns, createMessage l m (some ns) =
      createMessage l m none ++ noteSuffix ns) := by
  refine ⟨?_, ?_, ?_, fun m ns => createMessage_notes_shift l m ns⟩
  · intro m d notes res hres
    unfold log at hres
    split at hres
    · cases hres
    · split at hres <;>
        · cases Except.ok.inj hres
          constructor
          · intro w hw
            rw [List.mem_singleton] at hw
            subst hw
            exact createMessage_prefix l m notes
          · intro rs hrs
            rw [List.mem_singleton] at hrs
            subst hrs
            obtain ⟨rest, hrest⟩ := createMessage_prefix l m notes
            exact ⟨rest, by rw [log_entry_of_logRemotely, hrest]⟩
  · intro e d res hres
    unfold logError at hres
    split at hres
    · cases hres
    · split at hres
      · split at hres <;>
          · cases Except.ok.inj hres
            constructor
            · intro w hw
              rw [List.mem_singleton] at hw
              subst hw
              exact createMessage_prefix l e none
            · intro rs hrs
              rw [List.mem_singleton] at hrs
              subst hrs
              obtain ⟨rest, hrest⟩ := createMessage_prefix l e none
              exact ⟨rest, by rw [log_entry_of_logRemotely, hrest]⟩
      · split at hres
        · cases Except.ok.inj hres
          constructor
          · intro w hw
            rw [List.mem_singleton] at hw
            subst hw
            exact createMessage_prefix l (prop e "message") none
          · intro rs hrs
            rw [List.mem_singleton] at hrs
            subst hrs
            obtain ⟨rest, hrest⟩ := createMessage_prefix l (prop e "message") none
            exact ⟨rest, by rw [log_entry_of_logRemotely, hrest]⟩
        · cases Except.ok.inj hres
          exact ⟨fun w hw => absurd hw (List.not_mem_nil w),
            fun rs hrs => absurd hrs (List.not_mem_nil rs)⟩
  · intro req res hres
    simp only [logRequest] at hres
    by_cases hq : (!truthy req) = true
    · rw [if_pos hq] at hres
      cases hres
    · rw [if_neg hq] at hres
      have hmsg := createMessage_prefix l
        (.str (jsToString (prop req "method") ++ " " ++
          jsToString (prop req "url"))) none
      by_cases hbb : truthy (prop req "body") = true
      · rw [if_pos hbb] at hres
        cases Except.ok.inj hres
        refine ⟨?_, ?_⟩
        · intro w hw
          rw [List.mem_singleton] at hw
          subst hw
          exact hmsg
        · intro rs hrs
          rw [List.mem_singleton] at hrs
          subst hrs
          obtain ⟨rest, hrest⟩ := hmsg
          exact ⟨rest, by rw [log_entry_of_logRemotely, hrest]⟩
      · rw [if_neg hbb] at hres
        cases Except.ok.inj hres
        refine ⟨?_, ?_⟩
        · intro w hw
          rw [List.mem_singleton] at hw
          subst hw
          exact hmsg
        · intro rs hrs
          rw [List.mem_singleton] at hrs
          subst hrs
          obtain ⟨rest, hrest⟩ := hmsg
          exact ⟨rest, by rw [log_entry_of_logRemotely, hrest]⟩

/-- C9 witness: the prefix property instantiated at the concrete logger
named `"name"`, checked on a concrete `log` call. -/
theorem C9_witness :
    (∀ w ∈ ([⟨.log, "[name] msg", none⟩] : List ConsoleWrite),
      ∃ rest, w.message = displayName testLogger.name ++ rest) ∧
    (∀ m ns, createMessage testLogger m (some ns) =
      createMessage testLogger m none ++ noteSuffix ns) := by
  have h := C9_display_name_prefix testLogger
  refine ⟨?_, h.2.2.2⟩
  have hlog : log testLogger (.str "msg") .undefined none =
      .ok ⟨[⟨.log, "[name] msg", none⟩],
        [logRemotely testConfig "[name] msg" .undefined "info"]⟩ := by decide
  exact ((h.1 (.str "msg") .undefined none _ hlog).1)

/-- C10: any truthy request value makes `log.request` succeed — no check
is performed on the `method` or `url` fields — and the message is rendered
from whatever (possibly `undefined`) values those fields carry. -/
theorem C10_request_lenient (l : NamedLogger) (req : JsValue)
    (hreq : truthy req = true) :
    logRequest l req = .ok
      ⟨[⟨.log,
         createMessage l (.str (jsToString (prop req "method") ++ " " ++
           jsToString (prop req "url"))) none,
         if truthy (prop req "body") then some (prop req "body") else none⟩],
       [logRemotely l.config
         (createMessage l (.str (jsToString (prop req "method") ++ " " ++
           jsToString (prop req "url"))) none)
         (if truthy (prop req "body") then prop req "body" else .undefined)
         "info"]⟩ := by
  by_cases hb : truthy (prop req "body") <;> simp [logRequest, hreq, hb]

/-- C10 witness: the empty object is truthy, `log.request` does not raise
on it, and it renders `"[name] undefined undefined"`. -/
theorem C10_witness :
    truthy (JsValue.obj []) = true ∧
    logRequest testLogger (.obj []) = .ok
      ⟨[⟨.log, "[name] undefined undefined", none⟩],
       [logRemotely testConfig "[name] undefined undefined" .undefined
         "info"]⟩ :=
  ⟨by decide, by
    have h := C10_request_lenient testLogger (.obj []) (by decide)
    exact h.trans (by decide)⟩

end PackmateLog
